import Mathlib

/-!
# Talisman runner (`runner.go`): shallow embedding and verified properties

The file `runner.go` orchestrates one run of the talisman checks: it reads the
repository configuration, resolves the configured scopes to path patterns,
removes the additions covered by those patterns (`filterAdditionsByScope`),
hands the rest to the detector chain and turns the accumulated results into an
exit status.

Modelling conventions.

* A Go slice is a `Slice α = Option (List α)`: `none` is the `nil` slice and
  `some l` a non-nil slice with elements `l` (so `some []` is the empty, non-nil
  slice). `len` and `range` only see the elements; `!= nil` sees the difference.
* A Go `map[string][]string` is a function `String → Option (Slice String)`;
  indexing a missing key yields the zero value, the `nil` slice. The code only
  ever indexes the map, so a `nil` map and an empty map are the same function.
* Go `int` exit statuses are `Int`.
* Code of other packages (`git_repo`, `detector`, `scanner`, `report`,
  `checksumcalculator`, `utility`, `yaml`, `os`) is not part of `runner.go`; the
  functions of those packages that `runner.go` calls are fields of the record
  `Collaborators`, and every theorem holds for all values of that record.
* What `runner.go` writes (standard output, the log) and the calls it makes to
  effectful collaborators are recorded, in program order, as a list of `Event`s.
-/

namespace Talisman

/-! ## Go slices and maps -/

/-- A Go slice: `none` is `nil`, `some l` is a non-nil slice holding `l`. -/
abbrev Slice (α : Type) : Type := Option (List α)

/-- The elements a `range` loop over the slice visits, in order. -/
def Slice.elems {α : Type} (s : Slice α) : List α :=
  match s with
  | none => []
  | some l => l

/-- Go `len(s)`. -/
def Slice.len {α : Type} (s : Slice α) : Nat := s.elems.length

/-- Go `append(s, xs...)`: appending nothing to `nil` gives `nil`; every other
case gives a non-nil slice holding the old elements followed by `xs`. -/
def Slice.append {α : Type} (s : Slice α) (xs : List α) : Slice α :=
  match s, xs with
  | none, [] => none
  | s, xs => some (s.elems ++ xs)

/-- A Go `map[string][]string`. -/
abbrev ScopeMap : Type := String → Option (Slice String)

/-- Go `m[key]`: the stored slice, or the `nil` slice when the key is absent. -/
def ScopeMap.index (m : ScopeMap) (key : String) : Slice String :=
  match m key with
  | none => none
  | some v => v

/-! ## Data of the collaborating packages -/

/-- Modelled from the spec: the file mode of `git_repo.Addition` (the type declaration
is not part of `runner.go`); the spec lists regular / symlink / binary. -/
inductive FileMode where
  | regular
  | symlink
  | binary
  deriving DecidableEq, Repr

/-- Modelled from the spec: the type `git_repo.Addition` (its declaration is not part of
`runner.go`): one changed file, with path, content bytes and file mode. -/
structure Addition where
  path : String
  content : List Nat
  mode : FileMode
  deriving DecidableEq, Repr

/-- Modelled from the spec: the type `detector.ScopeConfig` (its declaration is not part
of `runner.go`, which reads the field `ScopeName`): one entry of the `scopeconfig`
section of the configuration file. -/
structure ScopeConfig where
  ScopeName : String
  deriving DecidableEq, Repr

/-- Modelled from the spec: the type `detector.FileIgnoreConfig` (its declaration is not
part of `runner.go`): one entry of the `fileignoreconfig` section, a file name
pattern with an optional checksum and the detectors ignored for it. -/
structure FileIgnoreConfig where
  FileName : String
  Checksum : String
  IgnoreDetectors : Slice String
  deriving DecidableEq, Repr

/-- Modelled from the spec: the type `detector.TalismanRCIgnore` (its declaration is not
part of `runner.go`, which reads the field `ScopeConfig` and compares it with
`nil`): the parsed repository configuration. -/
structure TalismanRCIgnore where
  FileIgnoreConfig : Slice FileIgnoreConfig
  ScopeConfig : Slice ScopeConfig
  deriving DecidableEq, Repr

/-- The Go composite literal `detector.TalismanRCIgnore{}`: every field is its
zero value, the `nil` slice. -/
def TalismanRCIgnore.zero : TalismanRCIgnore :=
  { FileIgnoreConfig := none, ScopeConfig := none }

/-- Modelled from the spec: the severity tiers of a finding (declared in package
`detector`, not part of `runner.go`). -/
inductive Severity where
  | ignore
  | warn
  | fail
  deriving DecidableEq, Repr

/-- Modelled from the spec: a finding (declared in package `detector`, not part of
`runner.go`): detector name, path of the addition, message and severity. -/
structure Finding where
  detector : String
  path : String
  message : String
  severity : Severity
  deriving DecidableEq, Repr

/-- Modelled from the spec: the type `detector.DetectionResults` (its declaration is not
part of `runner.go`): the findings accumulated during a run, in insertion order. -/
structure DetectionResults where
  findings : List Finding
  deriving DecidableEq, Repr

/-- Modelled from the spec: `detector.NewDetectionResults()` (not part of `runner.go`):
results with no finding. -/
def NewDetectionResults : DetectionResults := { findings := [] }

/-- Modelled from the spec: `DetectionResults.HasFailures` (not part of `runner.go`):
true iff at least one finding of severity `fail` exists. -/
def DetectionResults.HasFailures (r : DetectionResults) : Bool :=
  r.findings.any (fun f => decide (f.severity = Severity.fail))

/-- Modelled from the spec: `DetectionResults.HasWarnings` (not part of `runner.go`):
true iff at least one finding of severity `warn` exists. -/
def DetectionResults.HasWarnings (r : DetectionResults) : Bool :=
  r.findings.any (fun f => decide (f.severity = Severity.warn))

/-- Modelled from the spec: `DetectionResults.HasIgnores` (not part of `runner.go`):
true iff at least one finding of severity `ignore` exists. -/
def DetectionResults.HasIgnores (r : DetectionResults) : Bool :=
  r.findings.any (fun f => decide (f.severity = Severity.ignore))

/-- The result of reading a repository file: the bytes and the error text, if any. -/
abbrev FileRead : Type := List Nat × Option String

/-- The functions and values of other packages that `runner.go` uses. -/
structure Collaborators where
  /-- The method `git_repo.Addition.Matches(pattern)`. -/
  Matches : Addition → String → Bool
  /-- The directory `os.Getwd()` returns (its error is discarded by the code). -/
  Getwd : String
  /-- The method value `git_repo.RepoLocatedAt(wd).ReadRepoFileOrNothing`. -/
  ReadRepoFileOrNothing : String → String → FileRead
  /-- The function `detector.ReadConfigFromRCFile`. -/
  ReadConfigFromRCFile : (String → FileRead) → TalismanRCIgnore
  /-- The package-level string `scopeConfig` (declared in `scope_config.go`). -/
  scopeConfig : String
  /-- The call `yaml.Unmarshal([]byte(text), &scope)` on a `nil` map variable: the
  value `scope` holds afterwards, and the text of the error, if any. -/
  Unmarshal : String → ScopeMap × Option String
  /-- The call `detector.DefaultChain().Test(additions, ignores, results)`: the
  contents of `results` afterwards. -/
  chainTest : Slice Addition → TalismanRCIgnore → DetectionResults → DetectionResults
  /-- The method `DetectionResults.Report`. -/
  Report : DetectionResults → String
  /-- The method `DetectionResults.ReportWarnings`. -/
  ReportWarnings : DetectionResults → String
  /-- The function `scanner.GetAdditions`. -/
  GetAdditions : Slice Addition
  /-- The function `report.GenerateReport`: the path of the written report. -/
  GenerateReport : DetectionResults → String → String
  /-- The call `checksumcalculator.NewChecksumCalculator(patterns).SuggestTalismanRC()`. -/
  SuggestTalismanRC : Slice String → String

/-- What `runner.go` does to the outside world, one entry per statement. -/
inductive Event where
  /-- Text written to standard output by `fmt.Print`, `fmt.Printf`, `fmt.Println`. -/
  | stdout (text : String)
  /-- A message written by `log.Println` or `log.Printf`. -/
  | logged (text : String)
  /-- A call `utility.CreateArt(msg)`. -/
  | createArt (msg : String)
  /-- A call `detector.DefaultChain().Test(additions, ignores, results)`. -/
  | chainTest (additions : Slice Addition) (ignores : TalismanRCIgnore)
  /-- A call `report.GenerateReport(results, directory)`. -/
  | generateReport (results : DetectionResults) (directory : String)
  deriving DecidableEq, Repr

/-! ## `runner.go` -/

/-- The exit status of a run that completed without failures. -/
def CompletedSuccessfully : Int := 0

/-- The exit status of a run that completed with failures. -/
def CompletedWithErrors : Int := 1

/-- The name of the file holding the preset ignores of each scope. -/
def DefaultScopeConfigFileName : String := "scope_config.go"

/-- A single run of the validations: the additions and the results, which the
Go code holds by pointer and the detector chain updates in place. -/
structure Runner where
  additions : Slice Addition
  results : DetectionResults
  deriving DecidableEq, Repr

/-- The constructor `NewRunner`. -/
def NewRunner (additions : Slice Addition) : Runner :=
  { additions := additions, results := NewDetectionResults }

/-- The function `readRepoFile`: the reader of files of the repository located
at the working directory. -/
def readRepoFile (env : Collaborators) : String → FileRead :=
  let wd := env.Getwd
  env.ReadRepoFileOrNothing wd

/-- The function `readScopeConfig`: the map the YAML parser produced, returned
on both branches; on a parse error two messages are logged first. -/
def readScopeConfig (env : Collaborators) : ScopeMap × List Event :=
  match env.Unmarshal env.scopeConfig with
  | (scope, some err) =>
    (scope, [Event.logged "Unable to parse scope_config.go", Event.logged ("error: " ++ err)])
  | (scope, none) => (scope, [])

/-- The inner loop of `filterAdditionsByScope`: the final value of the flag
`isFilePresentInScope`, which starts `false` and is set (never cleared) by every
scope file name the addition matches; the loop has no early exit. -/
def filterAdditionsByScope.isFilePresentInScope (Matches : Addition → String → Bool)
    (addition : Addition) (scopeFiles : Slice String) : Bool :=
  scopeFiles.elems.foldl
    (fun flag fileName => if Matches addition fileName then true else flag) false

/-- The function `filterAdditionsByScope`: `result` starts as the `nil` slice and
every addition whose flag stayed `false` is appended to it. -/
def filterAdditionsByScope (Matches : Addition → String → Bool)
    (additions : Slice Addition) (scopeFiles : Slice String) : Slice Addition :=
  additions.elems.foldl
    (fun result addition =>
      if !(filterAdditionsByScope.isFilePresentInScope Matches addition scopeFiles) then
        result.append [addition]
      else result)
    none

/-- The first part of `doRun` (from the declaration of `applicableScopeFileNames`
to the end of the `if` block): the final value of that variable, and the events
of `readScopeConfig`, which is called only when `ScopeConfig` is not `nil`. -/
def doRun.applicableScopeFileNames (env : Collaborators) (ignoresNew : TalismanRCIgnore) :
    Slice String × List Event :=
  match ignoresNew.ScopeConfig with
  | none => (none, [])
  | some scopes =>
    let (scopeMap, events) := readScopeConfig env
    (scopes.foldl
      (fun names scope =>
        if (scopeMap.index scope.ScopeName).len > 0 then
          names.append (scopeMap.index scope.ScopeName).elems
        else names)
      none, events)

/-- The method `Runner.doRun`: the runner afterwards and the events, the last of
which is the call of the detector chain. -/
def doRun (env : Collaborators) (r : Runner) : Runner × List Event :=
  let ignoresNew := env.ReadConfigFromRCFile (readRepoFile env)
  let (applicableScopeFileNames, events) := doRun.applicableScopeFileNames env ignoresNew
  let additionsToScan := filterAdditionsByScope env.Matches r.additions applicableScopeFileNames
  ({ r with results := env.chainTest additionsToScan ignoresNew r.results },
    events ++ [Event.chainTest additionsToScan ignoresNew])

/-- The method `Runner.printReport`. -/
def printReport (env : Collaborators) (r : Runner) : List Event :=
  (if r.results.HasWarnings then [Event.stdout (env.ReportWarnings r.results ++ "\n")] else [])
    ++ (if r.results.HasIgnores || r.results.HasFailures then
          [Event.stdout (env.Report r.results ++ "\n")] else [])

/-- The method `Runner.exitStatus`. -/
def exitStatus (r : Runner) : Int :=
  if r.results.HasFailures then CompletedWithErrors else CompletedSuccessfully

/-- The method `Runner.RunWithoutErrors`: the exit status, the runner afterwards
and the events. -/
def RunWithoutErrors (env : Collaborators) (r : Runner) : Int × Runner × List Event :=
  let (r1, events) := doRun env r
  (exitStatus r1, r1, events ++ printReport env r1)

/-- The method `Runner.Scan`: the exit status, the runner afterwards and the
events. The additions come from the scanner and the ignores are empty. -/
def Scan (env : Collaborators) (r : Runner) (reportDirectory : String) :
    Int × Runner × List Event :=
  let additions := env.GetAdditions
  let ignores := TalismanRCIgnore.zero
  let r1 : Runner := { r with results := env.chainTest additions ignores r.results }
  let reportsPath := env.GenerateReport r1.results reportDirectory
  (exitStatus r1, r1,
    [Event.stdout "\n\n",
     Event.createArt "Running Scan..",
     Event.chainTest additions ignores,
     Event.generateReport r1.results reportDirectory,
     Event.stdout ("\nPlease check \x27" ++ reportsPath
        ++ "\x27 folder for the talisman scan report\n"),
     Event.stdout "\n"])

/-- The method `Runner.RunChecksumCalculator`: the exit status and the events. -/
def RunChecksumCalculator (env : Collaborators) (fileNamePatterns : Slice String) :
    Int × List Event :=
  let exitStatus : Int := 1
  let rcSuggestion := env.SuggestTalismanRC fileNamePatterns
  if rcSuggestion != "" then
    (0, [Event.stdout rcSuggestion])
  else
    (exitStatus, [])

/-! ## Reading a list of events -/

/-- The addition slices handed to the detector chain, one per call recorded in
the events, in program order. -/
def chainInputs (events : List Event) : List (Slice Addition) :=
  events.filterMap (fun event =>
    match event with
    | Event.chainTest additions _ => some additions
    | _ => none)

/-- The predicate `filterAdditionsByScope` keeps an addition by: it matches none
of the scope file names. -/
def matchesNone (Matches : Addition → String → Bool) (scopeFiles : Slice String)
    (addition : Addition) : Bool :=
  scopeFiles.elems.all (fun fileName => !(Matches addition fileName))

/-! ## Sample collaborators, for concrete instances

These values stand in for the other packages when a property is evaluated on a
concrete run; no general theorem depends on them. -/

/-- A sample path matcher: a pattern ending in two stars matches every path that
starts with what precedes the stars; any other pattern matches the equal path. -/
def sampleMatches (addition : Addition) (pattern : String) : Bool :=
  match pattern.data.reverse with
  | '*' :: '*' :: rest => rest.reverse.isPrefixOf addition.path.data
  | _ => decide (addition.path = pattern)

/-- A sample scope map: `binaries` covers `bin/**`, `docs` covers two patterns,
`nothing` has an empty entry, and no other scope has an entry. -/
def sampleScopeMap : ScopeMap := fun name =>
  if name = "binaries" then some (some ["bin/**"])
  else if name = "docs" then some (some ["doc/**", "README.md"])
  else if name = "nothing" then some (some [])
  else none

/-- The empty scope map. -/
def emptyScopeMap : ScopeMap := fun _ => none

/-- A sample detector chain: one `fail` finding per binary addition and one
`warn` finding per symlink, appended to the results. -/
def sampleChainTest (additions : Slice Addition) (_ignores : TalismanRCIgnore)
    (results : DetectionResults) : DetectionResults :=
  { findings := results.findings ++ additions.elems.filterMap (fun addition =>
      match addition.mode with
      | FileMode.binary => some ⟨"filetype", addition.path, "binary file", Severity.fail⟩
      | FileMode.symlink => some ⟨"filetype", addition.path, "symlink", Severity.warn⟩
      | FileMode.regular => none) }

/-- Sample collaborators: the configuration names the given scopes, and parsing
the scope configuration yields the given map and error. -/
def sampleEnv (scopes : Slice ScopeConfig) (scopeMap : ScopeMap) (parseError : Option String)
    (suggestion : String) : Collaborators :=
  { Matches := sampleMatches
    Getwd := "/repo"
    ReadRepoFileOrNothing := fun _ _ => ([], none)
    ReadConfigFromRCFile := fun _ => { FileIgnoreConfig := none, ScopeConfig := scopes }
    scopeConfig := "binaries: [bin/**]"
    Unmarshal := fun _ => (scopeMap, parseError)
    chainTest := sampleChainTest
    Report := fun _ => "report"
    ReportWarnings := fun _ => "warnings"
    GetAdditions := some [⟨"bin/tool.exe", [0, 1], FileMode.binary⟩]
    GenerateReport := fun _ directory => directory
    SuggestTalismanRC := fun _ => suggestion }

/-- A sample binary addition under `bin/`. -/
def toolExe : Addition := ⟨"bin/tool.exe", [77, 90], FileMode.binary⟩

/-- A sample source file. -/
def mainGo : Addition := ⟨"src/main.go", [112], FileMode.regular⟩

/-- A sample documentation file. -/
def readme : Addition := ⟨"README.md", [35], FileMode.regular⟩

/-- A sample runner holding the three sample additions and no results yet. -/
def sampleRunner : Runner := NewRunner (some [toolExe, mainGo, readme])

/-! ## Auxiliary facts about slices and the two loops -/

theorem Slice.elems_some {α : Type} (l : List α) : Slice.elems (some l) = l := rfl

theorem Slice.elems_append {α : Type} (s : Slice α) (xs : List α) :
    (s.append xs).elems = s.elems ++ xs := by
  cases s <;> cases xs <;> simp [Slice.append, Slice.elems]

theorem Slice.append_append {α : Type} (s : Slice α) (xs ys : List α) :
    (s.append xs).append ys = s.append (xs ++ ys) := by
  cases s <;> cases xs <;> cases ys <;> simp [Slice.append, Slice.elems]

theorem flag_foldl (Matches : Addition → String → Bool) (addition : Addition)
    (names : List String) (flag : Bool) :
    names.foldl (fun flag fileName => if Matches addition fileName then true else flag) flag
      = (flag || names.any (fun fileName => Matches addition fileName)) := by
  induction names generalizing flag with
  | nil => simp
  | cons n rest ih =>
    simp only [List.foldl_cons, List.any_cons, ih]
    cases Matches addition n <;> cases flag <;> simp

theorem isFilePresentInScope_eq (Matches : Addition → String → Bool) (addition : Addition)
    (scopeFiles : Slice String) :
    filterAdditionsByScope.isFilePresentInScope Matches addition scopeFiles
      = scopeFiles.elems.any (fun fileName => Matches addition fileName) := by
  unfold filterAdditionsByScope.isFilePresentInScope
  rw [flag_foldl, Bool.false_or]

theorem not_isFilePresentInScope (Matches : Addition → String → Bool) (addition : Addition)
    (scopeFiles : Slice String) :
    (!(filterAdditionsByScope.isFilePresentInScope Matches addition scopeFiles))
      = matchesNone Matches scopeFiles addition := by
  rw [isFilePresentInScope_eq, matchesNone]
  induction scopeFiles.elems with
  | nil => rfl
  | cons n rest ih =>
    simp only [List.any_cons, List.all_cons, Bool.not_or, ih]

theorem filter_foldl (keep : Addition → Bool) (additions : List Addition)
    (result : Slice Addition) :
    additions.foldl (fun result addition =>
        if keep addition then result.append [addition] else result) result
      = result.append (additions.filter keep) := by
  induction additions generalizing result with
  | nil => cases result <;> simp [Slice.append, Slice.elems]
  | cons a rest ih =>
    simp only [List.foldl_cons, List.filter_cons]
    cases h : keep a
    · simpa using ih result
    · simp only [if_true, ih, Slice.append_append, List.singleton_append]

/-- The slice `filterAdditionsByScope` returns, in closed form. -/
theorem filterAdditionsByScope_eq (Matches : Addition → String → Bool)
    (additions : Slice Addition) (scopeFiles : Slice String) :
    filterAdditionsByScope Matches additions scopeFiles
      = Slice.append none (additions.elems.filter (matchesNone Matches scopeFiles)) := by
  unfold filterAdditionsByScope
  simp only [not_isFilePresentInScope]
  exact filter_foldl (matchesNone Matches scopeFiles) additions.elems none

/-- The elements `filterAdditionsByScope` returns, in closed form. -/
theorem filterAdditionsByScope_elems (Matches : Addition → String → Bool)
    (additions : Slice Addition) (scopeFiles : Slice String) :
    (filterAdditionsByScope Matches additions scopeFiles).elems
      = additions.elems.filter (matchesNone Matches scopeFiles) := by
  rw [filterAdditionsByScope_eq, Slice.elems_append]
  simp [Slice.elems]

theorem matchesNone_eq_true (Matches : Addition → String → Bool) (scopeFiles : Slice String)
    (addition : Addition) :
    matchesNone Matches scopeFiles addition = true
      ↔ ∀ fileName ∈ scopeFiles.elems, Matches addition fileName = false := by
  simp [matchesNone]

theorem matchesNone_append (Matches : Addition → String → Bool) (s : Slice String)
    (xs : List String) (addition : Addition) :
    matchesNone Matches (s.append xs) addition
      = (matchesNone Matches s addition && matchesNone Matches (some xs) addition) := by
  unfold matchesNone
  rw [Slice.elems_append, List.all_append]
  rfl

theorem matchesNone_congr (Matches : Addition → String → Bool) (s t : Slice String)
    (h : ∀ fileName, fileName ∈ s.elems ↔ fileName ∈ t.elems) (addition : Addition) :
    matchesNone Matches s addition = matchesNone Matches t addition := by
  rw [Bool.eq_iff_iff, matchesNone_eq_true, matchesNone_eq_true]
  constructor
  · intro hs n hn
    exact hs n ((h n).2 hn)
  · intro ht n hn
    exact ht n ((h n).1 hn)

/-! ## Properties of `filterAdditionsByScope` -/

/-- Claim C1: for every list of additions and every list of scope file names,
`filterAdditionsByScope` returns exactly the additions that match none of the
scope file names: its elements are the input filtered by "matches no excluded
name", and an addition is in the result iff it is in the input and
`Matches` is false for every name of `scopeFiles`. -/
theorem C1_filterAdditionsByScope_keeps_exactly_unmatched
    (Matches : Addition → String → Bool) (additions : Slice Addition)
    (scopeFiles : Slice String) :
    (filterAdditionsByScope Matches additions scopeFiles).elems
        = additions.elems.filter
            (fun addition => scopeFiles.elems.all (fun fileName => !(Matches addition fileName)))
      ∧ ∀ addition : Addition,
          addition ∈ (filterAdditionsByScope Matches additions scopeFiles).elems
            ↔ (addition ∈ additions.elems
                ∧ ∀ fileName ∈ scopeFiles.elems, Matches addition fileName = false) := by
  refine ⟨filterAdditionsByScope_elems Matches additions scopeFiles, ?_⟩
  intro addition
  rw [filterAdditionsByScope_elems, List.mem_filter, matchesNone_eq_true]

/-- Claim C4: `filterAdditionsByScope` is idempotent: filtering the result again
with the same scope file list returns the same slice. -/
theorem C4_filterAdditionsByScope_idempotent
    (Matches : Addition → String → Bool) (additions : Slice Addition)
    (scopeFiles : Slice String) :
    filterAdditionsByScope Matches (filterAdditionsByScope Matches additions scopeFiles)
        scopeFiles
      = filterAdditionsByScope Matches additions scopeFiles := by
  rw [filterAdditionsByScope_eq Matches (filterAdditionsByScope Matches additions scopeFiles),
    filterAdditionsByScope_elems, filterAdditionsByScope_eq, List.filter_filter]
  simp

/-- Claim C5: `filterAdditionsByScope` is order-preserving: the elements of the
result are a sublist of the elements of the input, so survivors keep their
relative order; every addition of the result occurs in the result exactly as
often as in the input (survivors keep their multiplicity), an addition that
matches some scope file name does not occur in the result at all, no addition
occurs more often than in the input, and every addition of the result is an
addition of the input. -/
theorem C5_filterAdditionsByScope_sublist
    (Matches : Addition → String → Bool) (additions : Slice Addition)
    (scopeFiles : Slice String) :
    List.Sublist (filterAdditionsByScope Matches additions scopeFiles).elems additions.elems
      ∧ (∀ addition : Addition,
          addition ∈ (filterAdditionsByScope Matches additions scopeFiles).elems →
          (filterAdditionsByScope Matches additions scopeFiles).elems.count addition
            = additions.elems.count addition)
      ∧ (∀ addition : Addition,
          (∀ fileName ∈ scopeFiles.elems, Matches addition fileName = false) →
          (filterAdditionsByScope Matches additions scopeFiles).elems.count addition
            = additions.elems.count addition)
      ∧ (∀ (addition : Addition) (fileName : String),
          fileName ∈ scopeFiles.elems → Matches addition fileName = true →
          (filterAdditionsByScope Matches additions scopeFiles).elems.count addition = 0)
      ∧ (∀ addition : Addition,
          (filterAdditionsByScope Matches additions scopeFiles).elems.count addition
            ≤ additions.elems.count addition)
      ∧ ∀ addition : Addition,
          addition ∈ (filterAdditionsByScope Matches additions scopeFiles).elems
            → addition ∈ additions.elems := by
  have hsub : List.Sublist (filterAdditionsByScope Matches additions scopeFiles).elems
      additions.elems := by
    rw [filterAdditionsByScope_elems]
    exact List.filter_sublist _
  have hkept : ∀ addition : Addition,
      (∀ fileName ∈ scopeFiles.elems, Matches addition fileName = false) →
      (filterAdditionsByScope Matches additions scopeFiles).elems.count addition
        = additions.elems.count addition := by
    intro a ha
    rw [filterAdditionsByScope_elems]
    exact List.count_filter ((matchesNone_eq_true Matches scopeFiles a).2 ha)
  refine ⟨hsub, ?_, hkept, ?_, fun a => hsub.count_le a, fun a ha => hsub.subset ha⟩
  · intro a ha
    apply hkept
    rw [filterAdditionsByScope_elems, List.mem_filter, matchesNone_eq_true] at ha
    exact ha.2
  · intro a fileName hname hmatch
    rw [List.count_eq_zero, filterAdditionsByScope_elems, List.mem_filter,
      matchesNone_eq_true]
    rintro ⟨_, hnone⟩
    rw [hnone fileName hname] at hmatch
    exact Bool.false_ne_true hmatch

/-- Claim C10: scope filtering composes over concatenation of scope lists:
filtering by `append(S1, S2...)` equals filtering by `S1` and then by `S2`;
hence two scope lists with the same members (in any order, with any
duplication) give the same result, and the elements that survive the longer
list are a sublist of those that survive `S1` alone. -/
theorem C10_filterAdditionsByScope_concat
    (Matches : Addition → String → Bool) (additions : Slice Addition) :
    (∀ S1 S2 : Slice String,
        filterAdditionsByScope Matches additions (S1.append S2.elems)
          = filterAdditionsByScope Matches (filterAdditionsByScope Matches additions S1) S2)
      ∧ (∀ S T : Slice String, (∀ fileName, fileName ∈ S.elems ↔ fileName ∈ T.elems) →
          filterAdditionsByScope Matches additions S
            = filterAdditionsByScope Matches additions T)
      ∧ ∀ S1 S2 : Slice String,
          List.Sublist (filterAdditionsByScope Matches additions (S1.append S2.elems)).elems
            (filterAdditionsByScope Matches additions S1).elems := by
  have hcomp : ∀ S1 S2 : Slice String,
      filterAdditionsByScope Matches additions (S1.append S2.elems)
        = filterAdditionsByScope Matches (filterAdditionsByScope Matches additions S1) S2 := by
    intro S1 S2
    rw [filterAdditionsByScope_eq Matches (filterAdditionsByScope Matches additions S1),
      filterAdditionsByScope_elems, filterAdditionsByScope_eq, List.filter_filter]
    congr 1
    apply List.filter_congr
    intro a _
    rw [matchesNone_append, Bool.and_comm]
    congr 1
  refine ⟨hcomp, ?_, ?_⟩
  · intro S T h
    rw [filterAdditionsByScope_eq, filterAdditionsByScope_eq]
    congr 1
    apply List.filter_congr
    intro a _
    exact matchesNone_congr Matches S T h a
  · intro S1 S2
    rw [hcomp, filterAdditionsByScope_elems Matches (filterAdditionsByScope Matches additions S1)]
    exact List.filter_sublist _

/-! ## Auxiliary facts about `doRun` -/

theorem readScopeConfig_map (env : Collaborators) :
    (readScopeConfig env).1 = (env.Unmarshal env.scopeConfig).1 := by
  unfold readScopeConfig
  rcases env.Unmarshal env.scopeConfig with ⟨scope, _ | err⟩ <;> rfl

theorem readScopeConfig_chainInputs (env : Collaborators) :
    chainInputs (readScopeConfig env).2 = [] := by
  unfold readScopeConfig
  rcases env.Unmarshal env.scopeConfig with ⟨scope, _ | err⟩ <;> rfl

theorem Slice.append_nil {α : Type} (s : Slice α) : s.append [] = s := by
  cases s <;> simp [Slice.append, Slice.elems]

theorem scope_foldl (scopeMap : ScopeMap) (scopes : List ScopeConfig) (names : Slice String) :
    scopes.foldl
        (fun names scope =>
          if (scopeMap.index scope.ScopeName).len > 0 then
            names.append (scopeMap.index scope.ScopeName).elems
          else names)
        names
      = names.append
          (scopes.map (fun scope => (scopeMap.index scope.ScopeName).elems)).flatten := by
  induction scopes generalizing names with
  | nil => simp [Slice.append_nil]
  | cons scope rest ih =>
    simp only [List.foldl_cons, List.map_cons, List.flatten_cons]
    by_cases h : (scopeMap.index scope.ScopeName).len > 0
    · rw [if_pos h, ih, Slice.append_append]
    · rw [if_neg h, ih]
      have hnil : (scopeMap.index scope.ScopeName).elems = [] := by
        unfold Slice.len at h
        exact List.length_eq_zero.mp (Nat.eq_zero_of_not_pos h)
      rw [hnil, List.nil_append]

/-- The resolved scope file names of `doRun`, in closed form. -/
theorem applicableScopeFileNames_eq (env : Collaborators) (ignoresNew : TalismanRCIgnore) :
    (doRun.applicableScopeFileNames env ignoresNew).1
      = Slice.append none
          (ignoresNew.ScopeConfig.elems.map (fun scope =>
            ((env.Unmarshal env.scopeConfig).1.index scope.ScopeName).elems)).flatten := by
  unfold doRun.applicableScopeFileNames
  cases h : ignoresNew.ScopeConfig with
  | none => simp [Slice.elems, Slice.append]
  | some scopes =>
    simp only [Slice.elems]
    rw [← readScopeConfig_map]
    exact scope_foldl (readScopeConfig env).1 scopes none

theorem applicableScopeFileNames_chainInputs (env : Collaborators)
    (ignoresNew : TalismanRCIgnore) :
    chainInputs (doRun.applicableScopeFileNames env ignoresNew).2 = [] := by
  unfold doRun.applicableScopeFileNames
  cases ignoresNew.ScopeConfig with
  | none => rfl
  | some scopes => exact readScopeConfig_chainInputs env

/-- The method `doRun` calls the detector chain exactly once, on the runner
additions filtered by the resolved scope file names. -/
theorem doRun_chainInputs (env : Collaborators) (r : Runner) :
    chainInputs (doRun env r).2
      = [filterAdditionsByScope env.Matches r.additions
          (doRun.applicableScopeFileNames env
            (env.ReadConfigFromRCFile (readRepoFile env))).1] := by
  unfold doRun
  simp only [chainInputs, List.filterMap_append]
  have h := applicableScopeFileNames_chainInputs env
    (env.ReadConfigFromRCFile (readRepoFile env))
  unfold chainInputs at h
  rw [h]
  rfl

/-- The results after `doRun` are those the detector chain leaves when run on
the filtered additions. -/
theorem doRun_results (env : Collaborators) (r : Runner) :
    (doRun env r).1.results
      = env.chainTest
          (filterAdditionsByScope env.Matches r.additions
            (doRun.applicableScopeFileNames env
              (env.ReadConfigFromRCFile (readRepoFile env))).1)
          (env.ReadConfigFromRCFile (readRepoFile env)) r.results := rfl

theorem filterAdditionsByScope_no_names (Matches : Addition → String → Bool)
    (additions : Slice Addition) (scopeFiles : Slice String) (h : scopeFiles.elems = []) :
    (filterAdditionsByScope Matches additions scopeFiles).elems = additions.elems := by
  rw [filterAdditionsByScope_elems, List.filter_eq_self]
  intro a _
  simp [matchesNone, h]

theorem exitStatus_eq_one_iff (r : Runner) :
    exitStatus r = CompletedWithErrors ↔ r.results.HasFailures = true := by
  unfold exitStatus CompletedWithErrors CompletedSuccessfully
  cases r.results.HasFailures <;> simp

theorem exitStatus_eq_zero_iff (r : Runner) :
    exitStatus r = CompletedSuccessfully ↔ r.results.HasFailures = false := by
  unfold exitStatus CompletedWithErrors CompletedSuccessfully
  cases r.results.HasFailures <;> simp


theorem Slice.elems_eq_nil_of_nil_or_empty {α : Type} (s : Slice α)
    (h : s = none ∨ s = some []) : s.elems = [] := by
  rcases h with h | h <;> rw [h] <;> rfl

theorem ScopeMap.index_elems_of_unmapped (scopeMap : ScopeMap) (name : String)
    (h : scopeMap name = none ∨ ∃ entry, scopeMap name = some entry ∧ entry.elems = []) :
    (scopeMap.index name).elems = [] := by
  unfold ScopeMap.index
  rcases h with h | ⟨entry, h, hentry⟩
  · rw [h]; rfl
  · rw [h]; exact hentry

theorem ScopeMap.mem_index_of_entry (scopeMap : ScopeMap) (name : String)
    (patterns : Slice String) (h : scopeMap name = some patterns) :
    scopeMap.index name = patterns := by
  unfold ScopeMap.index
  rw [h]

/-! ## Properties of the runner -/

/-- Claim C2: the exit status is `CompletedWithErrors` (1) iff the results report
`HasFailures` and `CompletedSuccessfully` (0) otherwise; it takes no other value;
two runners whose results agree on `HasFailures` get the same status, whatever
their warnings and ignores, so adding findings of severity `warn` or `ignore`
to the results leaves the status unchanged; and `RunWithoutErrors` and `Scan` return the exit
status of the results accumulated by the detector chain. -/
theorem C2_exitStatus_iff_HasFailures (env : Collaborators) :
    (∀ r : Runner,
        (exitStatus r = CompletedWithErrors ↔ r.results.HasFailures = true)
        ∧ (exitStatus r = CompletedSuccessfully ↔ r.results.HasFailures = false)
        ∧ (exitStatus r = 0 ∨ exitStatus r = 1))
      ∧ (∀ r1 r2 : Runner, r1.results.HasFailures = r2.results.HasFailures →
          exitStatus r1 = exitStatus r2)
      ∧ (∀ (r : Runner) (extra : List Finding),
          (∀ finding ∈ extra, finding.severity ≠ Severity.fail) →
          exitStatus { r with results := { findings := r.results.findings ++ extra } }
            = exitStatus r)
      ∧ (∀ r : Runner,
          (RunWithoutErrors env r).2.1.results = (doRun env r).1.results
          ∧ ((RunWithoutErrors env r).1 = CompletedWithErrors
              ↔ (RunWithoutErrors env r).2.1.results.HasFailures = true)
          ∧ ((RunWithoutErrors env r).1 = CompletedSuccessfully
              ↔ (RunWithoutErrors env r).2.1.results.HasFailures = false))
      ∧ ∀ (r : Runner) (reportDirectory : String),
          (Scan env r reportDirectory).2.1.results
              = env.chainTest env.GetAdditions TalismanRCIgnore.zero r.results
          ∧ ((Scan env r reportDirectory).1 = CompletedWithErrors
              ↔ (Scan env r reportDirectory).2.1.results.HasFailures = true)
          ∧ ((Scan env r reportDirectory).1 = CompletedSuccessfully
              ↔ (Scan env r reportDirectory).2.1.results.HasFailures = false) := by
  refine ⟨fun r => ⟨exitStatus_eq_one_iff r, exitStatus_eq_zero_iff r, ?_⟩, ?_, ?_, ?_, ?_⟩
  · unfold exitStatus CompletedWithErrors CompletedSuccessfully
    cases r.results.HasFailures <;> simp
  · intro r1 r2 h
    unfold exitStatus
    rw [h]
  · intro r extra hextra
    have hnone : extra.any (fun f => decide (f.severity = Severity.fail)) = false := by
      rw [List.any_eq_false]
      intro f hf
      simpa using hextra f hf
    unfold exitStatus DetectionResults.HasFailures
    simp only [List.any_append, hnone, Bool.or_false]
  · intro r
    exact ⟨rfl, exitStatus_eq_one_iff (doRun env r).1, exitStatus_eq_zero_iff (doRun env r).1⟩
  · intro r reportDirectory
    exact ⟨rfl, exitStatus_eq_one_iff _, exitStatus_eq_zero_iff _⟩

/-- Claim C2, on sample runs: results holding only a warning and an ignore get
the status of empty results; the sample run without scopes fails on the binary
addition; the sample scan fails too. -/
theorem C2_exitStatus_iff_HasFailures_witness :
    exitStatus ⟨none, ⟨[⟨"filesize", "a", "big", Severity.warn⟩,
        ⟨"filename", "b", "ignored", Severity.ignore⟩]⟩⟩ = exitStatus (NewRunner none)
      ∧ (RunWithoutErrors (sampleEnv none sampleScopeMap none "") sampleRunner).1
          = CompletedWithErrors
      ∧ (Scan (sampleEnv none sampleScopeMap none "") sampleRunner "reports").1
          = CompletedWithErrors :=
  ⟨(C2_exitStatus_iff_HasFailures (sampleEnv none sampleScopeMap none "")).2.1 _ _ (by decide),
   ((C2_exitStatus_iff_HasFailures (sampleEnv none sampleScopeMap none "")).2.2.2.1
      sampleRunner).2.1.2 (by decide),
   ((C2_exitStatus_iff_HasFailures (sampleEnv none sampleScopeMap none "")).2.2.2.2
      sampleRunner "reports").2.1.2 (by decide)⟩

/-- Claim C3: in `doRun`, an addition that matches a path pattern of a scope that
is named in the configuration and has an entry in the scope map is not among
the additions handed to the detector chain, which `doRun` calls exactly once. -/
theorem C3_doRun_scoped_addition_never_reaches_chain (env : Collaborators) (r : Runner)
    (addition : Addition) (scope : ScopeConfig) (patterns : Slice String) (pattern : String)
    (hnamed : scope ∈ (env.ReadConfigFromRCFile (readRepoFile env)).ScopeConfig.elems)
    (hdefined : (readScopeConfig env).1 scope.ScopeName = some patterns)
    (hpattern : pattern ∈ patterns.elems)
    (hmatch : env.Matches addition pattern = true) :
    ∃ additionsToScan : Slice Addition,
      chainInputs (doRun env r).2 = [additionsToScan]
      ∧ (doRun env r).1.results
          = env.chainTest additionsToScan (env.ReadConfigFromRCFile (readRepoFile env))
              r.results
      ∧ addition ∉ additionsToScan.elems := by
  refine ⟨_, doRun_chainInputs env r, doRun_results env r, ?_⟩
  rw [filterAdditionsByScope_elems, List.mem_filter, matchesNone_eq_true]
  rintro ⟨_, hnone⟩
  have hmem : pattern ∈ (doRun.applicableScopeFileNames env
      (env.ReadConfigFromRCFile (readRepoFile env))).1.elems := by
    rw [applicableScopeFileNames_eq, Slice.elems_append, ← readScopeConfig_map]
    simp only [Slice.elems, List.nil_append, List.mem_flatten, List.mem_map]
    refine ⟨patterns.elems, ⟨scope, hnamed, ?_⟩, hpattern⟩
    rw [ScopeMap.mem_index_of_entry _ _ _ hdefined]
    rfl
  rw [hnone pattern hmem] at hmatch
  exact Bool.false_ne_true hmatch

/-- Claim C3, on the sample run: with scope `binaries` mapped to `bin/**`, the
addition `bin/tool.exe` is not handed to the detector chain. -/
theorem C3_doRun_scoped_addition_never_reaches_chain_witness :
    sampleMatches toolExe "bin/**" = true
      ∧ chainInputs (doRun (sampleEnv (some [⟨"binaries"⟩]) sampleScopeMap none "")
          sampleRunner).2 = [some [mainGo, readme]]
      ∧ ∃ additionsToScan : Slice Addition,
          chainInputs (doRun (sampleEnv (some [⟨"binaries"⟩]) sampleScopeMap none "")
            sampleRunner).2 = [additionsToScan]
          ∧ (doRun (sampleEnv (some [⟨"binaries"⟩]) sampleScopeMap none "")
              sampleRunner).1.results
              = sampleChainTest additionsToScan ⟨none, some [⟨"binaries"⟩]⟩
                  sampleRunner.results
          ∧ toolExe ∉ additionsToScan.elems :=
  ⟨by decide, by decide,
   C3_doRun_scoped_addition_never_reaches_chain
     (sampleEnv (some [⟨"binaries"⟩]) sampleScopeMap none "") sampleRunner toolExe
     ⟨"binaries"⟩ (some ["bin/**"]) "bin/**" (by decide) (by decide) (by decide) (by decide)⟩

/-- Claim C6: `RunChecksumCalculator` returns 0 iff the suggestion of the
checksum calculator is non-empty and 1 when it is the empty string; the
suggestion is written to standard output in the non-empty case, and nothing is
written in the empty case. -/
theorem C6_RunChecksumCalculator_status (env : Collaborators)
    (fileNamePatterns : Slice String) :
    ((RunChecksumCalculator env fileNamePatterns).1 = 0
        ↔ env.SuggestTalismanRC fileNamePatterns ≠ "")
      ∧ (env.SuggestTalismanRC fileNamePatterns = "" →
          (RunChecksumCalculator env fileNamePatterns).1 = 1
          ∧ (RunChecksumCalculator env fileNamePatterns).2 = [])
      ∧ (env.SuggestTalismanRC fileNamePatterns ≠ "" →
          (RunChecksumCalculator env fileNamePatterns).2
            = [Event.stdout (env.SuggestTalismanRC fileNamePatterns)]) := by
  unfold RunChecksumCalculator
  by_cases h : env.SuggestTalismanRC fileNamePatterns = ""
  · simp [h]
  · simp [h]

/-- Claim C6, on sample calculators: an empty suggestion gives status 1 and no
output, a non-empty one is printed. -/
theorem C6_RunChecksumCalculator_status_witness :
    ((RunChecksumCalculator (sampleEnv none sampleScopeMap none "") (some ["*.pem"])).1 = 1
        ∧ (RunChecksumCalculator (sampleEnv none sampleScopeMap none "") (some ["*.pem"])).2
            = [])
      ∧ (RunChecksumCalculator (sampleEnv none sampleScopeMap none "fileignoreconfig:")
            (some ["*.pem"])).2 = [Event.stdout "fileignoreconfig:"] :=
  ⟨(C6_RunChecksumCalculator_status (sampleEnv none sampleScopeMap none "")
      (some ["*.pem"])).2.1 (by decide),
   (C6_RunChecksumCalculator_status (sampleEnv none sampleScopeMap none "fileignoreconfig:")
      (some ["*.pem"])).2.2 (by decide)⟩


/-- Claim C7: in `doRun`, the resolved list `applicableScopeFileNames` holds exactly
the concatenation, in configuration order, of `scopeMap[name]` over the
configured scope names; a name with no entry or an empty entry contributes
nothing (the list is the one obtained without that name), and the detector
chain is still called, on the additions filtered by that list. -/
theorem C7_doRun_unmapped_scope_contributes_nothing (env : Collaborators) :
    (∀ ignoresNew : TalismanRCIgnore,
        (doRun.applicableScopeFileNames env ignoresNew).1.elems
          = (ignoresNew.ScopeConfig.elems.map (fun scope =>
              ((readScopeConfig env).1.index scope.ScopeName).elems)).flatten)
      ∧ (∀ (fileIgnores : Slice FileIgnoreConfig) (before after : List ScopeConfig)
          (scope : ScopeConfig),
          ((readScopeConfig env).1 scope.ScopeName = none
            ∨ ∃ entry, (readScopeConfig env).1 scope.ScopeName = some entry
                ∧ entry.elems = []) →
          (doRun.applicableScopeFileNames env ⟨fileIgnores, some (before ++ scope :: after)⟩).1
            = (doRun.applicableScopeFileNames env ⟨fileIgnores, some (before ++ after)⟩).1)
      ∧ ∀ r : Runner,
          chainInputs (doRun env r).2
            = [filterAdditionsByScope env.Matches r.additions
                (doRun.applicableScopeFileNames env
                  (env.ReadConfigFromRCFile (readRepoFile env))).1] := by
  refine ⟨?_, ?_, doRun_chainInputs env⟩
  · intro ignoresNew
    rw [applicableScopeFileNames_eq, Slice.elems_append, readScopeConfig_map]
    rfl
  · intro fileIgnores before after scope h
    have hnil := ScopeMap.index_elems_of_unmapped _ _ h
    rw [readScopeConfig_map] at hnil
    rw [applicableScopeFileNames_eq, applicableScopeFileNames_eq]
    simp only [Slice.elems_some, List.map_append, List.map_cons, List.flatten_append,
      List.flatten_cons, hnil, List.nil_append]

/-- Claim C7, on a sample configuration naming `docs`, the unmapped `zzz`, the
empty `nothing` and `binaries`: dropping `zzz` changes nothing, and the resolved
list is the patterns of `docs` followed by those of `binaries`. -/
theorem C7_doRun_unmapped_scope_contributes_nothing_witness :
    (doRun.applicableScopeFileNames (sampleEnv none sampleScopeMap none "")
        ⟨none, some ([⟨"docs"⟩] ++ ⟨"zzz"⟩ :: [⟨"nothing"⟩, ⟨"binaries"⟩])⟩).1
        = (doRun.applicableScopeFileNames (sampleEnv none sampleScopeMap none "")
            ⟨none, some ([⟨"docs"⟩] ++ [⟨"nothing"⟩, ⟨"binaries"⟩])⟩).1
      ∧ (doRun.applicableScopeFileNames (sampleEnv none sampleScopeMap none "")
          ⟨none, some [⟨"docs"⟩, ⟨"zzz"⟩, ⟨"nothing"⟩, ⟨"binaries"⟩]⟩).1
          = some ["doc/**", "README.md", "bin/**"] :=
  ⟨(C7_doRun_unmapped_scope_contributes_nothing (sampleEnv none sampleScopeMap none "")).2.1
      none [⟨"docs"⟩] [⟨"nothing"⟩, ⟨"binaries"⟩] ⟨"zzz"⟩ (Or.inl (by decide)),
   by decide⟩

/-- Claim C8: a malformed scope configuration is not fatal: when parsing fails,
`readScopeConfig` logs two messages and returns the map the parser produced, and
`doRun` still calls the detector chain and stores its results; when that map is
empty, the chain receives every addition of the runner, in order. -/
theorem C8_malformed_scope_config_not_fatal (env : Collaborators) (err : String)
    (hfail : (env.Unmarshal env.scopeConfig).2 = some err) :
    (readScopeConfig env).1 = (env.Unmarshal env.scopeConfig).1
      ∧ (readScopeConfig env).2
          = [Event.logged "Unable to parse scope_config.go", Event.logged ("error: " ++ err)]
      ∧ (∀ r : Runner, ∃ additionsToScan : Slice Addition,
          chainInputs (doRun env r).2 = [additionsToScan]
          ∧ (doRun env r).1.results
              = env.chainTest additionsToScan (env.ReadConfigFromRCFile (readRepoFile env))
                  r.results)
      ∧ ((∀ name : String, (env.Unmarshal env.scopeConfig).1 name = none) →
          ∀ r : Runner, ∃ additionsToScan : Slice Addition,
            chainInputs (doRun env r).2 = [additionsToScan]
            ∧ additionsToScan.elems = r.additions.elems) := by
  refine ⟨readScopeConfig_map env, ?_, ?_, ?_⟩
  · unfold readScopeConfig
    rcases hparse : env.Unmarshal env.scopeConfig with ⟨scope, perr⟩
    rw [hparse] at hfail
    simp only at hfail
    rw [hfail]
  · intro r
    exact ⟨_, doRun_chainInputs env r, doRun_results env r⟩
  · intro hempty r
    refine ⟨_, doRun_chainInputs env r, ?_⟩
    apply filterAdditionsByScope_no_names
    rw [applicableScopeFileNames_eq, Slice.elems_append]
    simp only [Slice.elems, List.nil_append]
    rw [List.eq_nil_iff_forall_not_mem]
    intro pattern hmem
    rw [List.mem_flatten] at hmem
    obtain ⟨l, hl, hpattern⟩ := hmem
    rw [List.mem_map] at hl
    obtain ⟨scope, _, hscope⟩ := hl
    have hnil : ((env.Unmarshal env.scopeConfig).1.index scope.ScopeName).elems = [] :=
      ScopeMap.index_elems_of_unmapped _ _ (Or.inl (hempty scope.ScopeName))
    simp only [Slice.elems] at hnil
    rw [hnil] at hscope
    rw [← hscope] at hpattern
    exact List.not_mem_nil _ hpattern

/-- Claim C8, on a sample run whose scope configuration fails to parse and yields
the empty map: the two messages are logged and the chain gets all additions. -/
theorem C8_malformed_scope_config_not_fatal_witness :
    (readScopeConfig (sampleEnv (some [⟨"binaries"⟩]) emptyScopeMap (some "yaml: line 1") "")).2
        = [Event.logged "Unable to parse scope_config.go",
            Event.logged ("error: " ++ "yaml: line 1")]
      ∧ chainInputs (doRun (sampleEnv (some [⟨"binaries"⟩]) emptyScopeMap
          (some "yaml: line 1") "") sampleRunner).2 = [some [toolExe, mainGo, readme]]
      ∧ ∃ additionsToScan : Slice Addition,
          chainInputs (doRun (sampleEnv (some [⟨"binaries"⟩]) emptyScopeMap
            (some "yaml: line 1") "") sampleRunner).2 = [additionsToScan]
          ∧ additionsToScan.elems = sampleRunner.additions.elems :=
  ⟨(C8_malformed_scope_config_not_fatal
      (sampleEnv (some [⟨"binaries"⟩]) emptyScopeMap (some "yaml: line 1") "")
      "yaml: line 1" rfl).2.1,
   by decide,
   (C8_malformed_scope_config_not_fatal
      (sampleEnv (some [⟨"binaries"⟩]) emptyScopeMap (some "yaml: line 1") "")
      "yaml: line 1" rfl).2.2.2 (fun _ => rfl) sampleRunner⟩

/-- Claim C9: with no excluded patterns (a `nil` or empty scope file list),
`filterAdditionsByScope` returns exactly the elements of its input in the same
order; consequently, when `ScopeConfig` of the configuration is `nil` or empty,
`doRun` hands every addition of the runner to the detector chain. -/
theorem C9_no_patterns_removes_nothing :
    (∀ (Matches : Addition → String → Bool) (additions : Slice Addition)
        (scopeFiles : Slice String), (scopeFiles = none ∨ scopeFiles = some []) →
        (filterAdditionsByScope Matches additions scopeFiles).elems = additions.elems)
      ∧ ∀ (env : Collaborators) (r : Runner),
          ((env.ReadConfigFromRCFile (readRepoFile env)).ScopeConfig = none
            ∨ (env.ReadConfigFromRCFile (readRepoFile env)).ScopeConfig = some []) →
          ∃ additionsToScan : Slice Addition,
            chainInputs (doRun env r).2 = [additionsToScan]
            ∧ additionsToScan.elems = r.additions.elems
            ∧ (doRun env r).1.results
                = env.chainTest additionsToScan
                    (env.ReadConfigFromRCFile (readRepoFile env)) r.results := by
  refine ⟨?_, ?_⟩
  · intro Matches additions scopeFiles h
    exact filterAdditionsByScope_no_names Matches additions scopeFiles
      (Slice.elems_eq_nil_of_nil_or_empty scopeFiles h)
  · intro env r h
    refine ⟨_, doRun_chainInputs env r, ?_, doRun_results env r⟩
    apply filterAdditionsByScope_no_names
    rw [applicableScopeFileNames_eq, Slice.elems_append,
      Slice.elems_eq_nil_of_nil_or_empty _ h]
    rfl

/-- Claim C9, on sample inputs: filtering the three sample additions by the
empty list keeps them, and the sample run with an empty `ScopeConfig` hands all
of them to the chain. -/
theorem C9_no_patterns_removes_nothing_witness :
    (filterAdditionsByScope sampleMatches (some [toolExe, mainGo, readme]) (some [])).elems
        = [toolExe, mainGo, readme]
      ∧ ∃ additionsToScan : Slice Addition,
          chainInputs (doRun (sampleEnv (some []) sampleScopeMap none "") sampleRunner).2
              = [additionsToScan]
          ∧ additionsToScan.elems = sampleRunner.additions.elems
          ∧ (doRun (sampleEnv (some []) sampleScopeMap none "") sampleRunner).1.results
              = sampleChainTest additionsToScan ⟨none, some []⟩ sampleRunner.results :=
  ⟨C9_no_patterns_removes_nothing.1 sampleMatches (some [toolExe, mainGo, readme]) (some [])
      (Or.inr rfl),
   C9_no_patterns_removes_nothing.2 (sampleEnv (some []) sampleScopeMap none "") sampleRunner
      (Or.inr rfl)⟩

/-- Claim C1, on the sample additions and the patterns of `binaries` and `docs`:
only `src/main.go` is kept, and it matches none of the three patterns. -/
theorem C1_filterAdditionsByScope_keeps_exactly_unmatched_witness :
    (filterAdditionsByScope sampleMatches (some [toolExe, mainGo, readme])
        (some ["bin/**", "doc/**", "README.md"])).elems = [mainGo]
      ∧ (mainGo ∈ [toolExe, mainGo, readme]
          ∧ ∀ fileName ∈ ["bin/**", "doc/**", "README.md"],
              sampleMatches mainGo fileName = false) :=
  ⟨by decide,
   ((C1_filterAdditionsByScope_keeps_exactly_unmatched sampleMatches
      (some [toolExe, mainGo, readme]) (some ["bin/**", "doc/**", "README.md"])).2 mainGo).1
      (by decide)⟩

/-- Claim C5, on an input holding `src/main.go` three times around `bin/tool.exe`,
filtered by `bin/**`: the result holds the three copies, as many as the input,
and `bin/tool.exe` not at all. -/
theorem C5_filterAdditionsByScope_sublist_witness :
    (filterAdditionsByScope sampleMatches (some [mainGo, toolExe, mainGo, mainGo])
        (some ["bin/**"])).elems = [mainGo, mainGo, mainGo]
      ∧ (filterAdditionsByScope sampleMatches (some [mainGo, toolExe, mainGo, mainGo])
          (some ["bin/**"])).elems.count mainGo
          = (Slice.elems (some [mainGo, toolExe, mainGo, mainGo])).count mainGo
      ∧ (filterAdditionsByScope sampleMatches (some [mainGo, toolExe, mainGo, mainGo])
          (some ["bin/**"])).elems.count toolExe = 0 :=
  ⟨by decide,
   (C5_filterAdditionsByScope_sublist sampleMatches (some [mainGo, toolExe, mainGo, mainGo])
      (some ["bin/**"])).2.1 mainGo (by decide),
   (C5_filterAdditionsByScope_sublist sampleMatches (some [mainGo, toolExe, mainGo, mainGo])
      (some ["bin/**"])).2.2.2.1 toolExe "bin/**" (by decide) (by decide)⟩

/-- Claim C10, on the sample additions: the scope lists `[bin/**, README.md]` and
`[README.md, bin/**, README.md]` have the same members and give the same
result. -/
theorem C10_filterAdditionsByScope_concat_witness :
    filterAdditionsByScope sampleMatches (some [toolExe, mainGo, readme])
        (some ["bin/**", "README.md"])
      = filterAdditionsByScope sampleMatches (some [toolExe, mainGo, readme])
          (some ["README.md", "bin/**", "README.md"]) :=
  (C10_filterAdditionsByScope_concat sampleMatches (some [toolExe, mainGo, readme])).2.1
    (some ["bin/**", "README.md"]) (some ["README.md", "bin/**", "README.md"])
    (by intro fileName; simp [Slice.elems]; tauto)


end Talisman
